import Mathlib

/-!
# Verification of the ccache stats engine (`src/stats.c`)

A shallow embedding of the per-shard statistics ledger of ccache:
the stats-file codec (`parse_stats` / `write_stats`), the default vector
(`stats_default`), the read path (`stats_read_fd` / `stats_read`), the flush
protocol with its cleanup trigger (`stats_flush`), and the administrative
operations (`stats_zero`, `stats_set_limits`, `stats_set_sizes`,
`stats_summary`).  Counters are C `unsigned` (32-bit) values modelled as
`Nat` with explicit `% 2^32`; `long` is modelled as `Int` clamped to the
64-bit range where `strtol` clamps.  File contents are `List Char`; absent
files are `none`.
-/

/-- Modelled from the spec: the closed enumeration `enum stats` is declared
in `ccache.h`, which is not part of the given sources; the spec fixes a
closed enumeration of statistic kinds indexing a fixed-length vector.  The
member set is exactly the one used by the display table `stats_info` in
`stats.c` plus the unused `STATS_NONE`, and the slot positions follow the
ccache stats-file layout.  No claim below depends on the particular numeric
positions, only on their distinctness and on the flags attached to them in
`stats_info` (which is in `stats.c`). -/
def STATS_END : Nat := 26

def STATS_NONE : Nat := 0
def STATS_STDOUT : Nat := 1
def STATS_STATUS : Nat := 2
def STATS_ERROR : Nat := 3
def STATS_TOCACHE : Nat := 4
def STATS_PREPROCESSOR : Nat := 5
def STATS_COMPILER : Nat := 6
def STATS_MISSING : Nat := 7
def STATS_CACHEHIT_CPP : Nat := 8
def STATS_ARGS : Nat := 9
def STATS_LINK : Nat := 10
def STATS_NUMFILES : Nat := 11
def STATS_TOTALSIZE : Nat := 12
def STATS_MAXFILES : Nat := 13
def STATS_MAXSIZE : Nat := 14
def STATS_SOURCELANG : Nat := 15
def STATS_DEVICE : Nat := 16
def STATS_NOINPUT : Nat := 17
def STATS_MULTIPLE : Nat := 18
def STATS_CONFTEST : Nat := 19
def STATS_UNSUPPORTED : Nat := 20
def STATS_OUTSTDOUT : Nat := 21
def STATS_CACHEHIT_DIR : Nat := 22
def STATS_NOOUTPUT : Nat := 23
def STATS_EMPTYOUTPUT : Nat := 24
def STATS_BADEXTRAFILE : Nat := 25

/-- The `FLAG_NOZERO` from stats.c: do not zero with the `-z` option. -/
def FLAG_NOZERO : Nat := 1
/-- The `FLAG_ALWAYS` from stats.c: always show, even if zero. -/
def FLAG_ALWAYS : Nat := 2

/-- The `stats_info` display table of stats.c, as (stat index, flags) pairs,
in the table's order (messages and display-function pointers omitted; they
do not affect any state change). -/
def stats_info : List (Nat × Nat) :=
  [ (STATS_CACHEHIT_DIR, FLAG_ALWAYS),
    (STATS_CACHEHIT_CPP, FLAG_ALWAYS),
    (STATS_TOCACHE,      FLAG_ALWAYS),
    (STATS_LINK,         0),
    (STATS_MULTIPLE,     0),
    (STATS_STDOUT,       0),
    (STATS_NOOUTPUT,     0),
    (STATS_EMPTYOUTPUT,  0),
    (STATS_STATUS,       0),
    (STATS_ERROR,        0),
    (STATS_PREPROCESSOR, 0),
    (STATS_COMPILER,     0),
    (STATS_MISSING,      0),
    (STATS_ARGS,         0),
    (STATS_SOURCELANG,   0),
    (STATS_CONFTEST,     0),
    (STATS_UNSUPPORTED,  0),
    (STATS_OUTSTDOUT,    0),
    (STATS_DEVICE,       0),
    (STATS_NOINPUT,      0),
    (STATS_BADEXTRAFILE, 0),
    (STATS_NUMFILES,     FLAG_NOZERO + FLAG_ALWAYS),
    (STATS_TOTALSIZE,    FLAG_NOZERO + FLAG_ALWAYS),
    (STATS_MAXFILES,     FLAG_NOZERO),
    (STATS_MAXSIZE,      FLAG_NOZERO) ]

/-- The `DEFAULT_MAXSIZE` from stats.c (KiB). -/
def DEFAULT_MAXSIZE : Nat := 1024 * 1024

/-- The `isspace` of the C locale, on the characters relevant here. -/
def isSpaceC (c : Char) : Bool :=
  c = ' ' || c = '\t' || c = '\n' || c = '\x0b' || c = '\x0c' || c = '\r'

/-- The `LONG_MAX` for a 64-bit `long`. -/
def LONG_MAX : Int := 2 ^ 63 - 1
/-- The `LONG_MIN` for a 64-bit `long`. -/
def LONG_MIN : Int := -(2 ^ 63)

/-- The `strtol` clamps out-of-range values to `LONG_MIN`/`LONG_MAX`. -/
def clampLong (v : Int) : Int :=
  if v > LONG_MAX then LONG_MAX else if v < LONG_MIN then LONG_MIN else v

/-- The numeric value of a digit string, most significant digit first
(the accumulation a base-10 `strtol` performs). -/
def digitsVal (ds : List Char) : Nat :=
  ds.foldl (fun a c => a * 10 + (c.toNat - 48)) 0

/-- The optional-sign step of `strtol`: returns whether the value is
negated and the buffer after the sign character, if any. -/
def strtolSign (q : List Char) : Bool × List Char :=
  if q.head? = some '-' then (true, q.tail)
  else if q.head? = some '+' then (false, q.tail)
  else (false, q)

/-- The `strtol` after whitespace has been skipped: optional sign, then a run
of decimal digits.  `none` when no digit is consumed (no conversion). -/
def strtolCore (q : List Char) : Option (Int × List Char) :=
  let s := strtolSign q
  let ds := s.2.takeWhile Char.isDigit
  if ds.isEmpty then none
  else
    some (clampLong (if s.1 then -(digitsVal ds : Int) else (digitsVal ds : Int)),
          s.2.drop ds.length)

/-- The `strtol(p, &p2, 10)`: skip whitespace, read an optional sign and a run
of decimal digits.  Returns the value and the rest of the buffer (`p2`).
If no digits are consumed, no conversion is performed: the value is 0 and
the rest is the whole original buffer (`p2 == p`). -/
def strtol (p : List Char) : Int × List Char :=
  match strtolCore (p.dropWhile isSpaceC) with
  | none => (0, p)
  | some r => r

/-- The `strtol` performs no conversion on this buffer (after skipping
whitespace and an optional sign there is no digit). -/
def strtolStuck (p : List Char) : Bool :=
  ((strtolSign (p.dropWhile isSpaceC)).2.takeWhile Char.isDigit).isEmpty

/-- C `unsigned` accumulation `c += v` where `v` is a `long`:
conversion to `unsigned` and the addition are both modulo `2^32`. -/
def uadd (c : Nat) (v : Int) : Nat := (((c : Int) + v) % (2 ^ 32 : Int)).toNat

/-- The `parse_stats` of stats.c: walk the buffer with `strtol`, adding each
parsed value into the next counter slot; stop at the first position where
`strtol` performs no conversion (`p2 == p`).  The counters array is the
list argument (the C function mutates `counters[0..STATS_END-1]`; slots
beyond the list are out of scope, and the loop bound `STATS_END` is the
list length in every use below). -/
def parse_stats : List Nat → List Char → List Nat
  | [], _ => []
  | c :: cs, p =>
    if (strtol p).2.length = p.length then c :: cs
    else uadd c (strtol p).1 :: parse_stats cs (strtol p).2

/-- Decimal rendering of a `Nat`, most significant digit first (reference
recursion). -/
def decimalRec (n : Nat) : List Char :=
  if _h : n < 10 then [Nat.digitChar n]
  else decimalRec (n / 10) ++ [Nat.digitChar (n % 10)]
termination_by n
decreasing_by exact Nat.div_lt_self (by omega) (by omega)

/-- Fuel-driven accumulator form of `decimalRec` (structural recursion, so
that concrete instances reduce). -/
def decimalCore : Nat → Nat → List Char → List Char
  | 0, _, acc => acc
  | fuel + 1, n, acc =>
    if n < 10 then Nat.digitChar n :: acc
    else decimalCore fuel (n / 10) (Nat.digitChar (n % 10) :: acc)

/-- Decimal rendering of a `Nat`, most significant digit first: the digit
sequence `fprintf("%u\n", v)` emits (the trailing newline added by the
caller). -/
def decimal (n : Nat) : List Char := decimalCore (n + 1) n []

/-- The byte sequence `write_stats` produces: each counter as a decimal
integer followed by a newline, in index order. -/
def encodeStats (counters : List Nat) : List Char :=
  (counters.map (fun c => decimal c ++ ['\n'])).flatten

/-- Outcome of `write_stats` of stats.c.  `success` carries the contents
renamed over the target path.  `openFailed`: `fopen` of the temp file
failed; a diagnostic is logged via `cc_log` and the function returns
normally without renaming anything.  `fatalError`: an `fprintf` to the temp
file failed; `fatal()` aborts the whole invocation with a diagnostic, and
nothing is renamed. -/
inductive WriteResult where
  | success : List Char → WriteResult
  | openFailed : WriteResult
  | fatalError : WriteResult
deriving DecidableEq, Repr

/-- The `write_stats` of stats.c, with the two fallible I/O steps as oracles:
`openOk` is whether `fopen` of the temp file succeeds, `writeOk` whether
every `fprintf` to it succeeds. -/
def write_stats (openOk writeOk : Bool) (counters : List Nat) : WriteResult :=
  if !openOk then .openFailed
  else if !writeOk then .fatalError
  else .success (encodeStats counters)

/-- Effect of `write_stats` on the target file: only a successful write
renames the temp file over the target; on `openFailed` the function
returned early, on `fatalError` the invocation aborted, and in both cases
the target keeps its old contents. -/
def applyWrite (old : Option (List Char)) : WriteResult → Option (List Char)
  | .success c => some c
  | .openFailed => old
  | .fatalError => old

/-- The `stats_default` of stats.c: add the default per-shard quota
(`DEFAULT_MAXSIZE / 16`) into the max-size slot. -/
def stats_default (counters : List Nat) : List Nat :=
  counters.set STATS_MAXSIZE
    ((counters.getD STATS_MAXSIZE 0 + DEFAULT_MAXSIZE / 16) % 2 ^ 32)

/-- The `stats_read_fd` of stats.c: read at most 1023 bytes; if the read
returns no bytes (empty file or read error), fall back to the defaults,
otherwise parse the buffer into the counters. -/
def stats_read_fd (contents : List Char) (counters : List Nat) : List Nat :=
  let buf := contents.take 1023
  if buf.length = 0 then stats_default counters
  else parse_stats counters buf

/-- The `stats_read` of stats.c (also the open/read sequence inlined in
`stats_flush`, `stats_zero`, `stats_set_limits` and `stats_set_sizes`):
if the file cannot be opened, fall back to the defaults, else read it. -/
def stats_read (file : Option (List Char)) (counters : List Nat) : List Nat :=
  match file with
  | none => stats_default counters
  | some contents => stats_read_fd contents counters

/-- The zero-initialised counters array (`memset(counters, 0, ...)`). -/
def zeroCounters : List Nat := List.replicate STATS_END 0

/-- The merge loop of `stats_flush`:
`for i: counters[i] += counter_updates[i]` in 32-bit unsigned
arithmetic. -/
def mergeCounters (counters updates : List Nat) : List Nat :=
  List.zipWith (fun c u => (c + u) % 2 ^ 32) counters updates

/-- Element-wise 32-bit addition of a (possibly shorter) vector into the
counters, leaving the trailing counters untouched: the shape in which the
`parse_stats` loop accumulates the parsed values. -/
def mergeInto : List Nat → List Nat → List Nat
  | cs, [] => cs
  | [], _ :: _ => []
  | c :: cs, v :: vs => (c + v) % 2 ^ 32 :: mergeInto cs vs

/-- The cleanup trigger predicate of `stats_flush` (lines 217-224): a
dimension triggers only when its maximum is non-zero and the merged value
strictly exceeds it. -/
def needCleanup (merged : List Nat) : Bool :=
  (merged.getD STATS_MAXFILES 0 ≠ 0 &&
     merged.getD STATS_NUMFILES 0 > merged.getD STATS_MAXFILES 0) ||
  (merged.getD STATS_MAXSIZE 0 ≠ 0 &&
     merged.getD STATS_TOTALSIZE 0 > merged.getD STATS_MAXSIZE 0)

/-- Environment oracles for one `stats_flush` call: whether
`CCACHE_NOSTATS` is set, whether the shard lock is acquired, and whether
the temp-file open / writes succeed. -/
structure FlushEnv where
  nostats : Bool
  lockOk : Bool
  openOk : Bool
  writeOk : Bool
deriving DecidableEq, Repr

/-- Outcome of one `stats_flush` call on its target stats file.
`skipped`: the function returned before touching the file (opt-out, no
pending deltas, or lock-acquisition failure).  `aborted`: `fatal()` fired
inside `write_stats`; the file keeps its old contents and nothing else
runs.  `completed`: the flush ran to the end; carries the resulting file
contents and the list of `cleanup_dir(dir, maxfiles, maxsize)` calls made
afterwards. -/
inductive FlushOutcome where
  | skipped : Option (List Char) → FlushOutcome
  | aborted : Option (List Char) → FlushOutcome
  | completed : Option (List Char) → List (String × Nat × Nat) → FlushOutcome
deriving DecidableEq, Repr

/-- The `stats_flush` of stats.c, for a flush whose stats file is
`dir ++ "/stats"` (the path-selection fallback for a null `stats_file`
only picks which shard this is; `dir` is that shard's directory, the first
argument `dirname(stats_file)` of `cleanup_dir`).  Returns the outcome on
the file together with the in-process `counter_updates` array after the
call — the function never writes to `counter_updates`. -/
def stats_flush (env : FlushEnv) (dir : String) (counter_updates : List Nat)
    (file : Option (List Char)) : FlushOutcome × List Nat :=
  if env.nostats then (.skipped file, counter_updates)
  else if !counter_updates.any (fun u => 0 < u) then (.skipped file, counter_updates)
  else if !env.lockOk then (.skipped file, counter_updates)
  else
    let read := stats_read file zeroCounters
    let merged := mergeCounters read counter_updates
    match write_stats env.openOk env.writeOk merged with
    | .fatalError => (.aborted file, counter_updates)
    | w =>
      let cleanups :=
        if needCleanup merged then
          [(dir, merged.getD STATS_MAXFILES 0, merged.getD STATS_MAXSIZE 0)]
        else []
      (.completed (applyWrite file w) cleanups, counter_updates)

/-- The zeroing loop of `stats_zero`: for every `stats_info` entry whose
flags lack `FLAG_NOZERO`, set that counter to 0. -/
def zeroFlagged (counters : List Nat) : List Nat :=
  stats_info.foldl
    (fun cs sf => if sf.2 &&& FLAG_NOZERO = 0 then cs.set sf.1 0 else cs)
    counters

/-- One shard's body of the `stats_zero` loop: skip the shard when the
lock fails, otherwise read (or default), zero the non-`FLAG_NOZERO`
counters and write back.  Returns the shard's file afterwards; `none` as
the second component means `fatal()` fired and the remaining shards are
never processed. -/
def zeroShard (lockOk openOk writeOk : Bool) (file : Option (List Char)) :
    Option (List Char) × Bool :=
  if !lockOk then (file, false)
  else
    let z := zeroFlagged (stats_read file zeroCounters)
    match write_stats openOk writeOk z with
    | .success c => (some c, false)
    | .openFailed => (file, false)
    | .fatalError => (file, true)

/-- The shard loop of `stats_zero` over the 16 shard files (in directory
order), with per-shard oracles `(lockOk, openOk, writeOk)`.  A fatal write
aborts the loop: later shards keep their old files.  The Bool records
whether the loop aborted. -/
def zeroShards : List (Bool × Bool × Bool) → List (Option (List Char)) →
    List (Option (List Char)) × Bool
  | _, [] => ([], false)
  | [], fs => (fs, false)
  | e :: es, f :: fs =>
    let r := zeroShard e.1 e.2.1 e.2.2 f
    if r.2 then (r.1 :: fs, true)
    else
      let rest := zeroShards es fs
      (r.1 :: rest.1, rest.2)

/-- The `stats_zero` of stats.c: unlink the top-level aggregate stats file,
then run the zeroing loop over the 16 shard stats files.  State is
(aggregate file, shard files); the Bool records a fatal abort. -/
def stats_zero (envs : List (Bool × Bool × Bool)) (_top : Option (List Char))
    (shards : List (Option (List Char))) :
    Option (List Char) × List (Option (List Char)) × Bool :=
  let r := zeroShards envs shards
  (none, r.1, r.2)

/-- How one `stats_set_limits` iteration ends, and how the whole call
ends: normally, with `return 1` because a directory could not be created,
or by `fatal()` inside `write_stats`. -/
inductive OpExit where
  | ok : OpExit
  | dirFailed : OpExit
  | fatalError : OpExit
deriving DecidableEq, Repr

/-- One shard's body of the `stats_set_limits` loop, after the global
maxima have been divided by 16: create the shard directory (failure ends
the whole call with exit code 1), lock (failure skips the shard), read (or
default), overwrite the max-files/max-size slots for non-`-1` limits, and
write back.  `long`-to-`unsigned` assignment reduces modulo `2^32`. -/
def setLimitsShard (dirOk lockOk openOk writeOk : Bool) (maxfiles maxsize : Int)
    (file : Option (List Char)) : Option (List Char) × OpExit :=
  if !dirOk then (file, .dirFailed)
  else if !lockOk then (file, .ok)
  else
    let cs := stats_read file zeroCounters
    let cs := if maxfiles ≠ -1 then cs.set STATS_MAXFILES (maxfiles % 2 ^ 32).toNat else cs
    let cs := if maxsize ≠ -1 then cs.set STATS_MAXSIZE (maxsize % 2 ^ 32).toNat else cs
    match write_stats openOk writeOk cs with
    | .success c => (some c, .ok)
    | .openFailed => (file, .ok)
    | .fatalError => (file, .fatalError)

/-- The shard loop of `stats_set_limits`, with per-shard oracles
`(dirOk, lockOk, openOk, writeOk)`.  A directory-creation failure or a
fatal write ends the loop; later shards keep their old files. -/
def setLimitsShards : List (Bool × Bool × Bool × Bool) → Int → Int →
    List (Option (List Char)) → List (Option (List Char)) × OpExit
  | _, _, _, [] => ([], .ok)
  | [], _, _, fs => (fs, .ok)
  | e :: es, maxfiles, maxsize, f :: fs =>
    let r := setLimitsShard e.1 e.2.1 e.2.2.1 e.2.2.2 maxfiles maxsize f
    match r.2 with
    | .ok =>
      let rest := setLimitsShards es maxfiles maxsize fs
      (r.1 :: rest.1, rest.2)
    | ex => (r.1 :: fs, ex)

/-- The `stats_set_limits` of stats.c: divide each non-`-1` limit by 16
(C `long` division, truncating toward zero), create the cache root
(failure returns 1 before any shard is touched), then run the per-shard
loop over the 16 shard files. -/
def stats_set_limits (rootOk : Bool) (envs : List (Bool × Bool × Bool × Bool))
    (maxfiles maxsize : Int) (shards : List (Option (List Char))) :
    List (Option (List Char)) × OpExit :=
  let maxfiles := if maxfiles ≠ -1 then Int.tdiv maxfiles 16 else maxfiles
  let maxsize := if maxsize ≠ -1 then Int.tdiv maxsize 16 else maxsize
  if !rootOk then (shards, .dirFailed)
  else setLimitsShards envs maxfiles maxsize shards

/-- The `stats_set_sizes` of stats.c, on one shard directory: lock (failure
leaves the file untouched), read (or default), overwrite — not add — the
file-count and total-size slots (`size_t`-to-`unsigned` assignment reduces
modulo `2^32`), write back.  The Bool records a fatal abort. -/
def stats_set_sizes (lockOk openOk writeOk : Bool) (num_files total_size : Nat)
    (file : Option (List Char)) : Option (List Char) × Bool :=
  if !lockOk then (file, false)
  else
    let cs := stats_read file zeroCounters
    let cs := cs.set STATS_NUMFILES (num_files % 2 ^ 32)
    let cs := cs.set STATS_TOTALSIZE (total_size % 2 ^ 32)
    match write_stats openOk writeOk cs with
    | .success c => (some c, false)
    | .openFailed => (file, false)
    | .fatalError => (file, true)

/-- The aggregation loop of `stats_summary`: start from a zeroed counters
array, read the top-level aggregate file into it first (`dir == -1`), then
— "oh what a nasty hack" — reset the max-size slot to 0, then read each of
the 16 shard files into the accumulating counters. -/
def stats_summary_counters (top : Option (List Char))
    (shards : List (Option (List Char))) : List Nat :=
  let c0 := stats_read top zeroCounters
  let c1 := c0.set STATS_MAXSIZE 0
  shards.foldl (fun cs f => stats_read f cs) c1

/-! ## Lemmas: decimal rendering -/

lemma decimalCore_eq (f : Nat) : ∀ n acc, n ≤ f →
    decimalCore (f + 1) n acc = decimalRec n ++ acc := by
  induction f with
  | zero =>
    intro n acc h
    have : n = 0 := by omega
    subst this
    rw [decimalRec]
    rfl
  | succ f ih =>
    intro n acc h
    show decimalCore (f + 1 + 1) n acc = decimalRec n ++ acc
    rw [decimalCore, decimalRec]
    split
    · rfl
    · next hn =>
      have hdiv : n / 10 ≤ f := by
        have hlt : n / 10 < n := Nat.div_lt_self (by omega) (by omega)
        omega
      rw [ih (n / 10) _ hdiv, List.append_assoc]
      rfl

lemma decimal_eq_rec (n : Nat) : decimal n = decimalRec n := by
  rw [decimal, decimalCore_eq n n [] le_rfl, List.append_nil]

lemma decimalRec_ne_nil (n : Nat) : decimalRec n ≠ [] := by
  rw [decimalRec]
  split
  · simp
  · simp

lemma decimal_ne_nil (n : Nat) : decimal n ≠ [] := by
  rw [decimal_eq_rec]
  exact decimalRec_ne_nil n

lemma digitChar_isDigit {d : Nat} (h : d < 10) : (Nat.digitChar d).isDigit = true := by
  interval_cases d <;> decide

lemma digitChar_toNat {d : Nat} (h : d < 10) : (Nat.digitChar d).toNat = 48 + d := by
  interval_cases d <;> decide

lemma decimalRec_all_digit (n : Nat) : ∀ c ∈ decimalRec n, c.isDigit = true := by
  induction n using Nat.strong_induction_on with
  | _ n ih =>
    rw [decimalRec]
    split
    · next h =>
      intro c hc
      rw [List.mem_singleton] at hc
      subst hc
      exact digitChar_isDigit h
    · next h =>
      intro c hc
      rw [List.mem_append] at hc
      rcases hc with hc | hc
      · exact ih (n / 10) (Nat.div_lt_self (by omega) (by omega)) c hc
      · rw [List.mem_singleton] at hc
        subst hc
        exact digitChar_isDigit (Nat.mod_lt _ (by omega))

lemma decimal_all_digit (n : Nat) : ∀ c ∈ decimal n, c.isDigit = true := by
  rw [decimal_eq_rec]
  exact decimalRec_all_digit n

lemma digitsVal_append_one (xs : List Char) (c : Char) :
    digitsVal (xs ++ [c]) = digitsVal xs * 10 + (c.toNat - 48) := by
  simp [digitsVal, List.foldl_append]

lemma digitsVal_decimal (n : Nat) : digitsVal (decimal n) = n := by
  rw [decimal_eq_rec]
  induction n using Nat.strong_induction_on with
  | _ n ih =>
    rw [decimalRec]
    split
    · next h =>
      simp [digitsVal, digitChar_toNat h]
    · next h =>
      rw [digitsVal_append_one, ih (n / 10) (Nat.div_lt_self (by omega) (by omega)),
        digitChar_toNat (Nat.mod_lt _ (by omega))]
      omega

lemma decimal_length (k : Nat) : ∀ n, n < 10 ^ (k + 1) → (decimal n).length ≤ k + 1 := by
  induction k with
  | zero =>
    intro n h
    rw [decimal_eq_rec, decimalRec]
    rw [dif_pos (by omega)]
    simp
  | succ k ih =>
    intro n h
    rw [decimal_eq_rec, decimalRec]
    split
    · simp
    · next hn =>
      rw [List.length_append]
      have hdiv : n / 10 < 10 ^ (k + 1) := by
        apply Nat.div_lt_of_lt_mul
        rw [← pow_succ']
        exact h
      have hrec := ih (n / 10) hdiv
      rw [decimal_eq_rec] at hrec
      simp only [List.length_singleton]
      omega

/-! ## Lemmas: encoding shape -/

lemma encodeStats_nil : encodeStats [] = [] := rfl

lemma encodeStats_cons (c : Nat) (cs : List Nat) :
    encodeStats (c :: cs) = decimal c ++ '\n' :: encodeStats cs := by
  simp [encodeStats]

lemma encodeStats_append (a b : List Nat) :
    encodeStats (a ++ b) = encodeStats a ++ encodeStats b := by
  simp [encodeStats]

lemma encodeStats_length_le (cs : List Nat) (h : ∀ x ∈ cs, x < 2 ^ 32) :
    (encodeStats cs).length ≤ 11 * cs.length := by
  induction cs with
  | nil => simp [encodeStats]
  | cons c cs ih =>
    rw [encodeStats_cons, List.length_append, List.length_cons]
    have h1 : (decimal c).length ≤ 10 := by
      apply decimal_length 9 c
      have := h c (List.mem_cons_self ..)
      omega
    have h2 := ih (fun x hx => h x (List.mem_cons_of_mem _ hx))
    rw [List.length_cons]
    omega

/-! ## Lemmas: character classes and scanning -/

lemma not_isSpaceC_of_isDigit {c : Char} (h : c.isDigit = true) : isSpaceC c = false := by
  by_contra hs
  rw [Bool.not_eq_false] at hs
  simp only [isSpaceC, Bool.or_eq_true, decide_eq_true_eq] at hs
  rcases hs with ((((rfl | rfl) | rfl) | rfl) | rfl) | rfl <;> exact absurd h (by decide)

lemma strtolSign_digit {d : Char} (tl : List Char) (h : d.isDigit = true) :
    strtolSign (d :: tl) = (false, d :: tl) := by
  have h1 : d ≠ '-' := by rintro rfl; exact absurd h (by decide)
  have h2 : d ≠ '+' := by rintro rfl; exact absurd h (by decide)
  simp [strtolSign, h1, h2]

lemma dropWhile_append_all {α} (p : α → Bool) (sep l : List α)
    (h : ∀ c ∈ sep, p c = true) : (sep ++ l).dropWhile p = l.dropWhile p := by
  induction sep with
  | nil => simp
  | cons s ss ih =>
    rw [List.cons_append, List.dropWhile_cons, h s (List.mem_cons_self ..)]
    simp only [if_true]
    exact ih (fun c hc => h c (List.mem_cons_of_mem _ hc))

lemma takeWhile_append_all {α} (p : α → Bool) (y : α) (r : List α) (hy : p y = false) :
    ∀ (xs : List α), (∀ c ∈ xs, p c = true) → (xs ++ y :: r).takeWhile p = xs := by
  intro xs
  induction xs with
  | nil =>
    intro _
    simp [List.takeWhile_cons, hy]
  | cons x xs ih =>
    intro h
    simp [List.takeWhile_cons, h x (List.mem_cons_self ..),
      ih (fun c hc => h c (List.mem_cons_of_mem _ hc))]

/-! ## Lemmas: strtol -/

lemma clampLong_coe (n : Nat) (h : (n : Int) ≤ LONG_MAX) : clampLong (n : Int) = (n : Int) := by
  unfold clampLong LONG_MAX LONG_MIN at *
  rw [if_neg (by omega), if_neg (by omega)]

lemma strtolCore_digit_run (d : Char) (tl rest : List Char)
    (hall : ∀ c ∈ d :: tl, c.isDigit = true) :
    strtolCore ((d :: tl) ++ '\n' :: rest) =
      some (clampLong (digitsVal (d :: tl) : Int), '\n' :: rest) := by
  have hdig : d.isDigit = true := hall d (List.mem_cons_self ..)
  have hsign : strtolSign ((d :: tl) ++ '\n' :: rest) = (false, (d :: tl) ++ '\n' :: rest) := by
    simp only [List.cons_append]
    exact strtolSign_digit _ hdig
  have htake : ((d :: tl) ++ '\n' :: rest).takeWhile Char.isDigit = d :: tl :=
    takeWhile_append_all Char.isDigit '\n' rest (by decide) (d :: tl) hall
  have hdrop : ((d :: tl) ++ '\n' :: rest).drop (d :: tl).length = '\n' :: rest :=
    List.drop_left _ _
  simp only [strtolCore, hsign, htake, hdrop]
  simp

lemma strtol_encode (sep rest : List Char) (n : Nat)
    (hsep : ∀ c ∈ sep, isSpaceC c = true) (hn : (n : Int) ≤ LONG_MAX) :
    strtol (sep ++ (decimal n ++ '\n' :: rest)) = ((n : Int), '\n' :: rest) := by
  obtain ⟨d, tl, hd⟩ := List.exists_cons_of_ne_nil (decimal_ne_nil n)
  have hall : ∀ c ∈ d :: tl, c.isDigit = true := by
    rw [← hd]; exact decimal_all_digit n
  have hdig : d.isDigit = true := hall d (List.mem_cons_self ..)
  have hdrw : (sep ++ (decimal n ++ '\n' :: rest)).dropWhile isSpaceC
      = decimal n ++ '\n' :: rest := by
    rw [dropWhile_append_all _ _ _ hsep, hd, List.cons_append, List.dropWhile_cons,
      not_isSpaceC_of_isDigit hdig]
    simp
  unfold strtol
  rw [hdrw, hd, strtolCore_digit_run d tl rest hall, ← hd, digitsVal_decimal,
    clampLong_coe n hn]

lemma strtol_stuck (p : List Char) (h : strtolStuck p = true) : strtol p = (0, p) := by
  unfold strtolStuck at h
  simp only [strtol, strtolCore, h, if_true]

lemma strtolStuck_append (sep junk : List Char) (hsep : ∀ c ∈ sep, isSpaceC c = true)
    (h : strtolStuck junk = true) : strtolStuck (sep ++ junk) = true := by
  unfold strtolStuck at *
  rw [dropWhile_append_all _ _ _ hsep]
  exact h

/-! ## Lemmas: parse/encode -/

lemma uadd_coe (c v : Nat) : uadd c (v : Int) = (c + v) % 2 ^ 32 := by
  unfold uadd
  omega

lemma parse_stats_encode (vs : List Nat) : ∀ (cs : List Nat) (sep junk : List Char),
    (∀ c ∈ sep, isSpaceC c = true) → (∀ x ∈ vs, x < 2 ^ 32) → strtolStuck junk = true →
    parse_stats cs (sep ++ (encodeStats vs ++ junk)) = mergeInto cs vs := by
  induction vs with
  | nil =>
    intro cs sep junk hsep _ hj
    cases cs with
    | nil => rfl
    | cons c cs =>
      have hs := strtol_stuck _ (strtolStuck_append sep junk hsep hj)
      simp only [encodeStats_nil, List.nil_append]
      simp only [parse_stats, hs]
      simp [mergeInto]
  | cons v vs ih =>
    intro cs sep junk hsep hv hj
    cases cs with
    | nil => rfl
    | cons c cs =>
      have hv0 : v < 2 ^ 32 := hv v (List.mem_cons_self ..)
      have hvs : ∀ x ∈ vs, x < 2 ^ 32 := fun x hx => hv x (List.mem_cons_of_mem _ hx)
      have hbuf : sep ++ (encodeStats (v :: vs) ++ junk)
          = sep ++ (decimal v ++ '\n' :: (encodeStats vs ++ junk)) := by
        rw [encodeStats_cons]
        simp [List.append_assoc]
      have hst : strtol (sep ++ (decimal v ++ '\n' :: (encodeStats vs ++ junk)))
          = ((v : Int), '\n' :: (encodeStats vs ++ junk)) := by
        apply strtol_encode _ _ _ hsep
        unfold LONG_MAX
        omega
      have hlen : ('\n' :: (encodeStats vs ++ junk)).length ≠
          (sep ++ (decimal v ++ '\n' :: (encodeStats vs ++ junk))).length := by
        have hpos : 0 < (decimal v).length := List.length_pos.mpr (decimal_ne_nil v)
        simp only [List.length_append, List.length_cons]
        omega
      rw [hbuf]
      simp only [parse_stats, hst]
      rw [if_neg hlen, uadd_coe]
      have hrec := ih cs ['\n'] junk
        (by intro x hx; rw [List.mem_singleton] at hx; subst hx; decide) hvs hj
      rw [List.singleton_append] at hrec
      rw [hrec]
      rfl

lemma mergeInto_replicate_zero : ∀ (vs : List Nat) (n : Nat), (∀ x ∈ vs, x < 2 ^ 32) →
    vs.length ≤ n → mergeInto (List.replicate n 0) vs = vs ++ List.replicate (n - vs.length) 0
  | [], n, _, _ => by simp [mergeInto]
  | v :: vs, n, hv, hlen => by
    cases n with
    | zero => simp at hlen
    | succ m =>
      rw [List.replicate_succ]
      show mergeInto (0 :: List.replicate m 0) (v :: vs) = _
      simp only [mergeInto]
      rw [mergeInto_replicate_zero vs m (fun x hx => hv x (List.mem_cons_of_mem _ hx))
        (by simpa using hlen)]
      have hvv : (0 + v) % 2 ^ 32 = v := by
        rw [Nat.zero_add]
        exact Nat.mod_eq_of_lt (hv v (List.mem_cons_self ..))
      rw [hvv]
      simp [Nat.succ_sub_succ]

/-! ## Claim C3: encode/decode round trip -/

/-- A concrete length-26 counter vector used to instantiate theorems with
hypotheses. -/
def sampleVec : List Nat :=
  [0, 1, 2, 3, 4, 5, 6, 7, 8, 9, 10, 4091, 123456, 4294967295, 65536, 15,
   16, 17, 18, 19, 20, 21, 22, 23, 24, 99]

/-- C3: for every counter vector of the fixed length `STATS_END` whose
slots are representable C `unsigned` values (non-negative, below `2^32`),
parsing the newline-delimited decimal text `write_stats` emits for it into
a zero-initialised counters array yields the vector back:
`decode(encode(v)) == v`. -/
theorem parse_encode_roundtrip (v : List Nat) (hlen : v.length = STATS_END)
    (hv : ∀ x ∈ v, x < 2 ^ 32) :
    parse_stats zeroCounters (encodeStats v) = v := by
  have h := parse_stats_encode v zeroCounters [] [] (by simp) hv (by decide)
  rw [List.nil_append, List.append_nil] at h
  rw [h, zeroCounters, mergeInto_replicate_zero v STATS_END hv (le_of_eq hlen), hlen]
  simp

theorem parse_encode_roundtrip_witness :
    sampleVec.length = STATS_END ∧ (∀ x ∈ sampleVec, x < 2 ^ 32) ∧
    parse_stats zeroCounters (encodeStats sampleVec) = sampleVec :=
  ⟨by decide, by decide, parse_encode_roundtrip sampleVec (by decide) (by decide)⟩

/-! ## Claim C4: truncation tolerance -/

/-- C4: decoding the first `k` complete lines of the encoding of `v` into
a zero-initialised counters array yields a vector whose first `k` slots
are those of `v` and whose remaining slots are zero; parsing is total and
simply stops at the first token on which `strtol` performs no conversion
(`strtolStuck junk`), so trailing garbage is ignored rather than an
error.  The first conjunct certifies that the decoded buffer really is the
prefix of `encode(v)` made of its first `k` complete lines. -/
theorem parse_encode_truncation (v : List Nat) (k : Nat) (junk : List Char)
    (hlen : v.length = STATS_END) (hk : k ≤ STATS_END)
    (hv : ∀ x ∈ v, x < 2 ^ 32) (hj : strtolStuck junk = true) :
    encodeStats (v.take k) ++ encodeStats (v.drop k) = encodeStats v ∧
    parse_stats zeroCounters (encodeStats (v.take k) ++ junk)
      = v.take k ++ List.replicate (STATS_END - k) 0 := by
  have hvk : ∀ x ∈ v.take k, x < 2 ^ 32 := fun x hx => hv x (List.take_subset k v hx)
  have hlenk : (v.take k).length = k := by
    rw [List.length_take, hlen]
    omega
  constructor
  · rw [← encodeStats_append, List.take_append_drop]
  · have h := parse_stats_encode (v.take k) zeroCounters [] junk (by simp) hvk hj
    rw [List.nil_append] at h
    rw [h, zeroCounters, mergeInto_replicate_zero _ _ hvk (by rw [hlenk]; exact hk), hlenk]

theorem parse_encode_truncation_witness :
    5 ≤ STATS_END ∧ strtolStuck ['x'] = true ∧
    parse_stats zeroCounters (encodeStats (sampleVec.take 5) ++ ['x'])
      = sampleVec.take 5 ++ List.replicate (STATS_END - 5) 0 :=
  ⟨by decide, by decide,
    (parse_encode_truncation sampleVec 5 ['x'] (by decide) (by decide) (by decide)
      (by decide)).2⟩

/-! ## Claim C8: default quota for a missing shard -/

/-- C8: reading a shard whose stats file does not exist (`none`: `open`
failed), or exists but yields no bytes (`read` returned no data), into the
zero-initialised counters array produces the default vector: the max-size
slot holds the built-in default per-shard quota `DEFAULT_MAXSIZE / 16`,
which is non-zero, and every other slot is zero. -/
theorem stats_read_missing_default :
    stats_read none zeroCounters
      = (List.replicate STATS_END 0).set STATS_MAXSIZE (DEFAULT_MAXSIZE / 16) ∧
    stats_read (some []) zeroCounters
      = (List.replicate STATS_END 0).set STATS_MAXSIZE (DEFAULT_MAXSIZE / 16) ∧
    DEFAULT_MAXSIZE / 16 ≠ 0 ∧
    (stats_read none zeroCounters).getD STATS_MAXSIZE 0 = DEFAULT_MAXSIZE / 16 ∧
    ∀ i < STATS_END, i ≠ STATS_MAXSIZE → (stats_read none zeroCounters).getD i 0 = 0 := by
  decide

/-! ## Claim C6: temp-file write failures -/

/-- C6 counterexample: when `fopen` of the temp file fails, `write_stats`
only logs (`cc_log`) and returns normally, leaving the target file as it
was — the failure is not fatal, refuting the claim that every temp-file
write failure aborts the invocation. -/
theorem write_stats_open_failure_not_fatal :
    write_stats false true zeroCounters = WriteResult.openFailed ∧
    WriteResult.openFailed ≠ WriteResult.fatalError ∧
    applyWrite (some ['7', '\n']) (write_stats false true zeroCounters)
      = some ['7', '\n'] := by
  decide

/-- C6 amended: a failed `fprintf` to the temp file is fatal — the
invocation aborts with a diagnostic; a failed `fopen` of the temp file is
logged with a diagnostic and the write abandoned, the function returning
normally (not fatal).  In both failure cases nothing is renamed over the
target path, which keeps its previous contents; only a fully successful
write installs the encoded counters. -/
theorem write_stats_failure_behaviour (openOk writeOk : Bool) (counters : List Nat)
    (old : Option (List Char)) :
    (openOk = false → write_stats openOk writeOk counters = WriteResult.openFailed) ∧
    (openOk = true → writeOk = false →
      write_stats openOk writeOk counters = WriteResult.fatalError) ∧
    (openOk = true → writeOk = true →
      write_stats openOk writeOk counters = WriteResult.success (encodeStats counters)) ∧
    applyWrite old WriteResult.openFailed = old ∧
    applyWrite old WriteResult.fatalError = old := by
  refine ⟨?_, ?_, ?_, rfl, rfl⟩
  · intro h
    simp [write_stats, h]
  · intro h1 h2
    simp [write_stats, h1, h2]
  · intro h1 h2
    simp [write_stats, h1, h2]

theorem write_stats_failure_behaviour_witness :
    write_stats false true [7] = WriteResult.openFailed ∧
    write_stats true false [7] = WriteResult.fatalError ∧
    applyWrite (some ['7', '\n']) WriteResult.fatalError = some ['7', '\n'] :=
  ⟨(write_stats_failure_behaviour false true [7] (some ['7', '\n'])).1 rfl,
   (write_stats_failure_behaviour true false [7] (some ['7', '\n'])).2.1 rfl rfl,
   (write_stats_failure_behaviour true false [7] (some ['7', '\n'])).2.2.2.2⟩

/-! ## Lemmas: lengths and bounds of read/merge -/

lemma parse_stats_length (cs : List Nat) : ∀ buf, (parse_stats cs buf).length = cs.length := by
  induction cs with
  | nil => intro buf; rfl
  | cons c cs ih =>
    intro buf
    simp only [parse_stats]
    split
    · rfl
    · simp [ih]

lemma stats_default_length (cs : List Nat) : (stats_default cs).length = cs.length := by
  simp [stats_default]

lemma stats_read_length (file : Option (List Char)) :
    (stats_read file zeroCounters).length = STATS_END := by
  cases file with
  | none => simp [stats_read, stats_default_length, zeroCounters]
  | some contents =>
    simp only [stats_read, stats_read_fd]
    split
    · simp [stats_default_length, zeroCounters]
    · simp [parse_stats_length, zeroCounters]

lemma mergeCounters_length (a b : List Nat) :
    (mergeCounters a b).length = min a.length b.length := by
  simp [mergeCounters]

lemma mergeCounters_lt : ∀ (a b : List Nat), ∀ x ∈ mergeCounters a b, x < 2 ^ 32
  | [], _ => by simp [mergeCounters]
  | _ :: _, [] => by simp [mergeCounters]
  | a :: as, b :: bs => by
    intro x hx
    simp only [mergeCounters, List.zipWith_cons_cons, List.mem_cons] at hx
    rcases hx with rfl | hx
    · exact Nat.mod_lt _ (by norm_num)
    · exact mergeCounters_lt as bs x hx

lemma parse_encode_id (w : List Nat) (hlen : w.length = STATS_END)
    (hw : ∀ x ∈ w, x < 2 ^ 32) :
    parse_stats zeroCounters (encodeStats w) = w := by
  have h := parse_stats_encode w zeroCounters [] [] (by simp) hw (by decide)
  rw [List.nil_append, List.append_nil] at h
  rw [h, zeroCounters, mergeInto_replicate_zero w STATS_END hw (le_of_eq hlen), hlen]
  simp

lemma stats_read_encode (w : List Nat) (hlen : w.length = STATS_END)
    (hw : ∀ x ∈ w, x < 2 ^ 32) :
    stats_read (some (encodeStats w)) zeroCounters = w := by
  have hle : (encodeStats w).length ≤ 1023 := by
    have h := encodeStats_length_le w hw
    rw [hlen] at h
    simp only [STATS_END] at h
    omega
  have htake : (encodeStats w).take 1023 = encodeStats w := List.take_of_length_le hle
  have hne : (encodeStats w).length ≠ 0 := by
    cases w with
    | nil => simp [STATS_END] at hlen
    | cons c cs =>
      rw [encodeStats_cons]
      simp
  simp only [stats_read, stats_read_fd, htake]
  rw [if_neg hne]
  exact parse_encode_id w hlen hw

/-! ## Claim C1: cleanup trigger of stats_flush -/

/-- C1: a successful flush (opt-out unset, some pending delta positive,
lock acquired, temp-file open and writes succeed) installs the merged
counters and then invokes `cleanup_dir` exactly once — against the shard's
directory, with the merged max-files and max-size counters as arguments —
iff the merged max-files counter is non-zero and the merged file count
exceeds it, or the merged max-size counter is non-zero and the merged
total size exceeds it; a zero maximum never triggers its dimension.  The
second conjunct spells the trigger predicate out. -/
theorem stats_flush_cleanup_trigger (env : FlushEnv) (dir : String)
    (updates : List Nat) (file : Option (List Char))
    (hns : env.nostats = false) (hl : env.lockOk = true)
    (ho : env.openOk = true) (hw : env.writeOk = true)
    (hu : updates.any (fun u => 0 < u) = true) :
    stats_flush env dir updates file =
      (FlushOutcome.completed
        (some (encodeStats (mergeCounters (stats_read file zeroCounters) updates)))
        (if needCleanup (mergeCounters (stats_read file zeroCounters) updates) then
          [(dir,
            (mergeCounters (stats_read file zeroCounters) updates).getD STATS_MAXFILES 0,
            (mergeCounters (stats_read file zeroCounters) updates).getD STATS_MAXSIZE 0)]
         else []),
       updates) ∧
    (∀ m : List Nat, needCleanup m = true ↔
      (m.getD STATS_MAXFILES 0 ≠ 0 ∧
        m.getD STATS_NUMFILES 0 > m.getD STATS_MAXFILES 0) ∨
      (m.getD STATS_MAXSIZE 0 ≠ 0 ∧
        m.getD STATS_TOTALSIZE 0 > m.getD STATS_MAXSIZE 0)) := by
  constructor
  · simp [stats_flush, hns, hl, ho, hw, hu, write_stats, applyWrite]
  · intro m
    simp [needCleanup]

/-- Oracles for a fully successful flush. -/
def flushEnvOk : FlushEnv := ⟨false, true, true, true⟩

/-- A pending-deltas array: one cache miss plus 70000 KiB added, which
pushes the merged total size past the 65536 KiB default quota. -/
def updatesW : List Nat :=
  [0, 0, 0, 0, 1, 0, 0, 0, 0, 0, 0, 0, 70000, 0, 0, 0, 0, 0, 0, 0, 0, 0, 0, 0, 0, 0]

theorem stats_flush_cleanup_trigger_witness :
    updatesW.any (fun u => 0 < u) = true ∧
    (stats_flush flushEnvOk "d" updatesW none).1 =
      FlushOutcome.completed
        (some (encodeStats (mergeCounters (stats_read none zeroCounters) updatesW)))
        [("d", 0, 65536)] := by
  have h := (stats_flush_cleanup_trigger flushEnvOk "d" updatesW none rfl rfl rfl rfl
    (by decide)).1
  refine ⟨by decide, ?_⟩
  rw [h]
  decide

/-! ## Claim C10: flush does not reset the pending deltas -/

/-- C10: `stats_flush` never writes to the in-process `counter_updates`
array — it is returned unchanged by every call — so a second call in the
same process merges the same deltas into the shard's stats file a second
time: flushing again on the file produced by a successful flush installs
`merge (merge read updates) updates`.  Flushing at most once per process
is a caller obligation, not enforced by the function. -/
theorem stats_flush_applies_deltas_again (env : FlushEnv) (dir : String)
    (updates : List Nat) (file : Option (List Char))
    (hns : env.nostats = false) (hl : env.lockOk = true)
    (ho : env.openOk = true) (hw : env.writeOk = true)
    (hu : updates.any (fun u => 0 < u) = true)
    (hulen : updates.length = STATS_END) :
    (∀ env' dir' file', (stats_flush env' dir' updates file').2 = updates) ∧
    (stats_flush env dir updates
        (some (encodeStats (mergeCounters (stats_read file zeroCounters) updates)))).1 =
      FlushOutcome.completed
        (some (encodeStats
          (mergeCounters (mergeCounters (stats_read file zeroCounters) updates) updates)))
        (if needCleanup
            (mergeCounters (mergeCounters (stats_read file zeroCounters) updates) updates)
          then
          [(dir,
            (mergeCounters (mergeCounters (stats_read file zeroCounters) updates)
              updates).getD STATS_MAXFILES 0,
            (mergeCounters (mergeCounters (stats_read file zeroCounters) updates)
              updates).getD STATS_MAXSIZE 0)]
         else []) := by
  have hm1len : (mergeCounters (stats_read file zeroCounters) updates).length = STATS_END := by
    rw [mergeCounters_length, stats_read_length, hulen]
    simp
  have hm1lt := mergeCounters_lt (stats_read file zeroCounters) updates
  have hread2 := stats_read_encode _ hm1len hm1lt
  constructor
  · intro env' dir' file'
    simp only [stats_flush]
    split
    · rfl
    · split
      · rfl
      · split
        · rfl
        · split
          · rfl
          · rfl
  · simp [stats_flush, hns, hl, ho, hw, hu, write_stats, applyWrite, hread2]

theorem stats_flush_applies_deltas_again_witness :
    updatesW.any (fun u => 0 < u) = true ∧ updatesW.length = STATS_END ∧
    (stats_flush flushEnvOk "d" updatesW none).2 = updatesW ∧
    (stats_flush flushEnvOk "d" updatesW
        (some (encodeStats (mergeCounters (stats_read none zeroCounters) updatesW)))).1 =
      FlushOutcome.completed
        (some (encodeStats
          (mergeCounters (mergeCounters (stats_read none zeroCounters) updatesW)
            updatesW)))
        [("d", 0, 65536)] := by
  have h := stats_flush_applies_deltas_again flushEnvOk "d" updatesW none rfl rfl rfl rfl
    (by decide) (by decide)
  refine ⟨by decide, by decide, h.1 flushEnvOk "d" none, ?_⟩
  rw [h.2]
  decide

/-! ## Lemmas: getD over set, mergeInto pointwise -/

lemma getD_set_self : ∀ (l : List Nat) (i v : Nat), i < l.length →
    (l.set i v).getD i 0 = v
  | [], i, v, h => by simp at h
  | _ :: _, 0, _, _ => rfl
  | _ :: l, i + 1, v, h => by
    rw [List.set_cons_succ, List.getD_cons_succ]
    exact getD_set_self l i v (by simpa using h)

lemma getD_set_other : ∀ (l : List Nat) (i j v : Nat), i ≠ j →
    (l.set i v).getD j 0 = l.getD j 0
  | [], _, _, _, _ => rfl
  | _ :: _, 0, 0, _, h => absurd rfl h
  | _ :: _, 0, _ + 1, _, _ => by rw [List.set_cons_zero, List.getD_cons_succ, List.getD_cons_succ]
  | _ :: _, _ + 1, 0, _, _ => by rw [List.set_cons_succ, List.getD_cons_zero, List.getD_cons_zero]
  | _ :: l, i + 1, j + 1, v, h => by
    rw [List.set_cons_succ, List.getD_cons_succ, List.getD_cons_succ]
    exact getD_set_other l i j v (by omega)

lemma mergeInto_length : ∀ (cs vs : List Nat), (mergeInto cs vs).length = cs.length
  | cs, [] => by cases cs <;> rfl
  | [], _ :: _ => rfl
  | c :: cs, v :: vs => by
    show ((c + v) % 2 ^ 32 :: mergeInto cs vs).length = (c :: cs).length
    simp [mergeInto_length cs vs]

lemma mergeInto_getD : ∀ (cs vs : List Nat) (i : Nat), i < cs.length → i < vs.length →
    (mergeInto cs vs).getD i 0 = (cs.getD i 0 + vs.getD i 0) % 2 ^ 32
  | [], _, i, h, _ => by simp at h
  | _ :: _, [], i, _, h => by simp at h
  | _ :: _, _ :: _, 0, _, _ => rfl
  | c :: cs, v :: vs, i + 1, h1, h2 => by
    show (mergeInto cs vs).getD i 0 = _
    rw [List.getD_cons_succ, List.getD_cons_succ]
    exact mergeInto_getD cs vs i (by simpa using h1) (by simpa using h2)

lemma stats_read_encode_into (w acc : List Nat) (hlen : w.length = STATS_END)
    (hw : ∀ x ∈ w, x < 2 ^ 32) :
    stats_read (some (encodeStats w)) acc = mergeInto acc w := by
  have hle : (encodeStats w).length ≤ 1023 := by
    have h := encodeStats_length_le w hw
    rw [hlen] at h
    simp only [STATS_END] at h
    omega
  have htake : (encodeStats w).take 1023 = encodeStats w := List.take_of_length_le hle
  have hne : (encodeStats w).length ≠ 0 := by
    cases w with
    | nil => simp [STATS_END] at hlen
    | cons c cs =>
      rw [encodeStats_cons]
      simp
  simp only [stats_read, stats_read_fd, htake]
  rw [if_neg hne]
  have h := parse_stats_encode w acc [] [] (by simp) hw (by decide)
  rw [List.nil_append, List.append_nil] at h
  exact h

/-! ## Lemmas: loop shapes of the administrative operations -/

lemma zeroShards_all_ok : ∀ (fs : List (Option (List Char))),
    zeroShards (List.replicate fs.length (true, true, true)) fs
      = (fs.map (fun f => some (encodeStats (zeroFlagged (stats_read f zeroCounters)))), false)
  | [] => rfl
  | f :: fs => by
    have ih := zeroShards_all_ok fs
    show zeroShards (List.replicate (fs.length + 1) (true, true, true)) (f :: fs) = _
    rw [List.replicate_succ]
    simp [zeroShards, zeroShard, write_stats, ih]

lemma setLimitsShards_all_ok (mf ms : Int) (hmf : mf ≠ -1) (hms : ms ≠ -1) :
    ∀ (fs : List (Option (List Char))),
    setLimitsShards (List.replicate fs.length (true, true, true, true)) mf ms fs
      = (fs.map (fun f => some (encodeStats
          (((stats_read f zeroCounters).set STATS_MAXFILES (mf % 2 ^ 32).toNat).set
            STATS_MAXSIZE (ms % 2 ^ 32).toNat))), .ok)
  | [] => rfl
  | f :: fs => by
    have ih := setLimitsShards_all_ok mf ms hmf hms fs
    show setLimitsShards (List.replicate (fs.length + 1) (true, true, true, true)) mf ms (f :: fs) = _
    rw [List.replicate_succ]
    simp [setLimitsShards, setLimitsShard, write_stats, hmf, hms, ih]

lemma summary_fold_getD : ∀ (ws : List (List Nat)) (acc : List Nat),
    acc.length = STATS_END →
    (∀ w ∈ ws, w.length = STATS_END ∧ ∀ x ∈ w, x < 2 ^ 32) →
    ∀ i, i < STATS_END →
    ((ws.map (fun w => some (encodeStats w))).foldl (fun cs f => stats_read f cs) acc).getD i 0
      = ws.foldl (fun a w => (a + w.getD i 0) % 2 ^ 32) (acc.getD i 0)
  | [], acc, _, _, i, _ => by simp
  | w :: ws, acc, hacc, hws, i, hi => by
    have hw := hws w (List.mem_cons_self ..)
    have hread : stats_read (some (encodeStats w)) acc = mergeInto acc w :=
      stats_read_encode_into w acc hw.1 hw.2
    simp only [List.map_cons, List.foldl_cons, hread]
    rw [summary_fold_getD ws (mergeInto acc w)
      (by rw [mergeInto_length, hacc]) (fun x hx => hws x (List.mem_cons_of_mem _ hx)) i hi]
    rw [mergeInto_getD acc w i (by omega) (by rw [hw.1]; exact hi)]

/-! ## Claim C2: zero semantics -/

/-- A pre-zero shard vector whose file-count slot is 3. -/
def preZeroVec : List Nat :=
  [0, 0, 0, 0, 0, 0, 0, 0, 0, 0, 0, 3, 0, 0, 0, 0, 0, 0, 0, 0, 0, 0, 0, 0, 0, 0]

/-- C2 counterexample: `stats_zero` does not reset the file-count counter.
Starting from 16 shards whose first shard's stats file records
`STATS_NUMFILES = 3` (all locks and writes succeeding), the zero operation
writes that shard's file back with the file count still 3 — refuting the
claim that every counter other than max-files and max-size is reset to
0. -/
theorem stats_zero_keeps_numfiles :
    (stats_zero (List.replicate 16 (true, true, true)) none
        (some (encodeStats preZeroVec) :: List.replicate 15 none)).2.1.getD 0 none
      = some (encodeStats preZeroVec) ∧
    preZeroVec.getD STATS_NUMFILES 0 = 3 ∧
    STATS_NUMFILES ≠ STATS_MAXFILES ∧ STATS_NUMFILES ≠ STATS_MAXSIZE := by
  decide

/-- C2 amended: for every starting state, `stats_zero` removes the
top-level aggregate stats file and rewrites every shard (whose lock and
write succeed — here all of them) with the counters re-read and all slots
zeroed except those whose `stats_info` entry carries `FLAG_NOZERO`: the
file-count, total-size, max-files and max-size counters keep their
previous values (so do the slot of the unused `STATS_NONE` statistic,
which no `stats_info` entry covers).  The second conjunct spells out the
zeroing map on an arbitrary length-26 vector. -/
theorem stats_zero_amended (top : Option (List Char)) (fs : List (Option (List Char))) :
    stats_zero (List.replicate fs.length (true, true, true)) top fs
      = (none,
         fs.map (fun f => some (encodeStats (zeroFlagged (stats_read f zeroCounters)))),
         false) ∧
    (∀ c0 c1 c2 c3 c4 c5 c6 c7 c8 c9 c10 c11 c12 c13 c14 c15 c16 c17 c18 c19 c20
        c21 c22 c23 c24 c25 : Nat,
      zeroFlagged [c0, c1, c2, c3, c4, c5, c6, c7, c8, c9, c10, c11, c12, c13, c14,
          c15, c16, c17, c18, c19, c20, c21, c22, c23, c24, c25]
        = [c0, 0, 0, 0, 0, 0, 0, 0, 0, 0, 0, c11, c12, c13, c14,
           0, 0, 0, 0, 0, 0, 0, 0, 0, 0, 0]) := by
  constructor
  · unfold stats_zero
    rw [zeroShards_all_ok fs]
  · intro c0 c1 c2 c3 c4 c5 c6 c7 c8 c9 c10 c11 c12 c13 c14 c15 c16 c17 c18 c19
      c20 c21 c22 c23 c24 c25
    simp only [zeroFlagged, stats_info, List.foldl_cons, List.foldl_nil,
      FLAG_NOZERO, FLAG_ALWAYS, STATS_CACHEHIT_DIR, STATS_CACHEHIT_CPP,
      STATS_TOCACHE, STATS_LINK, STATS_MULTIPLE, STATS_STDOUT, STATS_NOOUTPUT,
      STATS_EMPTYOUTPUT, STATS_STATUS, STATS_ERROR, STATS_PREPROCESSOR,
      STATS_COMPILER, STATS_MISSING, STATS_ARGS, STATS_SOURCELANG,
      STATS_CONFTEST, STATS_UNSUPPORTED, STATS_OUTSTDOUT, STATS_DEVICE,
      STATS_NOINPUT, STATS_BADEXTRAFILE, STATS_NUMFILES, STATS_TOTALSIZE,
      STATS_MAXFILES, STATS_MAXSIZE]
    norm_num

/-! ## Claim C5: lock-acquisition failure tolerance -/

/-- C5: when a shard's lock cannot be acquired, every operation leaves
that shard's stats file untouched and signals no error: `stats_flush`
returns as a silent skip with the file and pending deltas unchanged;
`stats_set_sizes` returns with the file unchanged and no fatal flag; the
per-shard loops of `stats_zero` and `stats_set_limits` skip the
lock-failed shard — its file unchanged — and continue processing the
remaining shards, whose outcome alone determines the loop's result. -/
theorem lock_failure_skips (env : FlushEnv) (dir : String) (updates : List Nat)
    (file : Option (List Char)) (o w : Bool) (nf ts : Nat)
    (es : List (Bool × Bool × Bool)) (es4 : List (Bool × Bool × Bool × Bool))
    (f : Option (List Char)) (fs : List (Option (List Char))) (mf ms : Int) :
    (env.lockOk = false →
      stats_flush env dir updates file = (.skipped file, updates)) ∧
    stats_set_sizes false o w nf ts f = (f, false) ∧
    zeroShards ((false, o, w) :: es) (f :: fs)
      = (f :: (zeroShards es fs).1, (zeroShards es fs).2) ∧
    setLimitsShards ((true, false, o, w) :: es4) mf ms (f :: fs)
      = (f :: (setLimitsShards es4 mf ms fs).1, (setLimitsShards es4 mf ms fs).2) := by
  refine ⟨?_, rfl, rfl, rfl⟩
  intro h
  simp only [stats_flush, h]
  split
  · rfl
  · split
    · rfl
    · simp

theorem lock_failure_skips_witness :
    stats_flush ⟨false, false, true, true⟩ "d" updatesW (some ['1', '\n'])
      = (.skipped (some ['1', '\n']), updatesW) ∧
    stats_set_sizes false true true 4 9 (some ['1', '\n']) = (some ['1', '\n'], false) ∧
    zeroShards ((false, true, true) :: List.replicate 15 (true, true, true))
        (some ['1', '\n'] :: List.replicate 15 none)
      = (some ['1', '\n'] ::
          (zeroShards (List.replicate 15 (true, true, true))
            (List.replicate 15 none)).1,
         (zeroShards (List.replicate 15 (true, true, true))
            (List.replicate 15 none)).2) ∧
    setLimitsShards [(true, false, true, true)] 10 100 [some ['1', '\n']]
      = ([some ['1', '\n']], OpExit.ok) := by
  have h1 := lock_failure_skips ⟨false, false, true, true⟩ "d" updatesW
    (some ['1', '\n']) true true 4 9 (List.replicate 15 (true, true, true)) []
    (some ['1', '\n']) (List.replicate 15 none) 10 100
  have h2 := lock_failure_skips ⟨false, false, true, true⟩ "d" updatesW
    (some ['1', '\n']) true true 4 9 [] [] (some ['1', '\n']) [] 10 100
  exact ⟨h1.1 rfl, h1.2.1, h1.2.2.1, h2.2.2.2.trans (by decide)⟩

/-! ## Claim C9: set-limits divides by 16 -/

/-- C9: for every non-negative global limit pair (so neither equals the
`-1` "leave unchanged" sentinel), `stats_set_limits` — with the cache root
and shard directories created and every lock and write succeeding —
rewrites each shard's stats file with the counters as read except that the
max-files slot is overwritten with the global max-files divided by 16 and
the max-size slot with the global max-size divided by 16 (C `long`
division truncating toward zero, then reduced to `unsigned`), and returns
success. -/
theorem stats_set_limits_divides (maxfiles maxsize : Int)
    (fs : List (Option (List Char))) (hmf : 0 ≤ maxfiles) (hms : 0 ≤ maxsize) :
    stats_set_limits true (List.replicate fs.length (true, true, true, true))
        maxfiles maxsize fs
      = (fs.map (fun f => some (encodeStats
          (((stats_read f zeroCounters).set STATS_MAXFILES
              ((Int.tdiv maxfiles 16) % 2 ^ 32).toNat).set STATS_MAXSIZE
            ((Int.tdiv maxsize 16) % 2 ^ 32).toNat))),
         OpExit.ok) := by
  have hmf1 : maxfiles ≠ -1 := by omega
  have hms1 : maxsize ≠ -1 := by omega
  have h16 : (0 : Int) ≤ 16 := by norm_num
  have hmf2 : Int.tdiv maxfiles 16 ≠ -1 := by
    have hge := Int.tdiv_nonneg hmf h16
    omega
  have hms2 : Int.tdiv maxsize 16 ≠ -1 := by
    have hge := Int.tdiv_nonneg hms h16
    omega
  simp only [stats_set_limits, hmf1, hms1, if_true, Bool.not_true, Bool.false_eq_true,
    if_false, ne_eq, not_false_eq_true]
  exact setLimitsShards_all_ok _ _ hmf2 hms2 fs

theorem stats_set_limits_divides_witness :
    (0 : Int) ≤ 160 ∧ (0 : Int) ≤ 1600 ∧
    stats_set_limits true (List.replicate 16 (true, true, true, true)) 160 1600
        (List.replicate 16 none)
      = (List.replicate 16 (some (encodeStats
          (((stats_read none zeroCounters).set STATS_MAXFILES 10).set
            STATS_MAXSIZE 100))),
         OpExit.ok) ∧
    (((stats_read none zeroCounters).set STATS_MAXFILES 10).set
        STATS_MAXSIZE 100).getD STATS_MAXFILES 0 = 10 ∧
    (((stats_read none zeroCounters).set STATS_MAXFILES 10).set
        STATS_MAXSIZE 100).getD STATS_MAXSIZE 0 = 100 := by
  have h := stats_set_limits_divides 160 1600 (List.replicate 16 none)
    (by omega) (by omega)
  refine ⟨by omega, by omega, ?_, by decide, by decide⟩
  rw [show (List.replicate 16 none : List (Option (List Char))).length = 16 by decide] at h
  rw [h]
  decide

/-! ## Claim C7: summary aggregation and the aggregate file -/

/-- A top-level aggregate vector with non-zero file-count, total-size,
max-files and max-size slots. -/
def topVec : List Nat :=
  [0, 0, 0, 0, 0, 0, 0, 0, 0, 0, 0, 7, 9, 5, 11, 0, 0, 0, 0, 0, 0, 0, 0, 0, 0, 0]

/-- C7 counterexample: during `stats_summary` aggregation only the
max-size slot read from the top-level aggregate file is zeroed.  With a
top-level file recording file-count 7, total-size 9 and max-files 5, and
all 16 shard files absent, the displayed totals still contain 7, 9 and 5 —
refuting the claim that both the size counters and the file counters of
the aggregate file (total-size, file-count and both maxima) are zeroed
before summing.  Only the max-size slot was suppressed (it holds exactly
the 16 per-shard default quotas added by the absent-file reads). -/
theorem stats_summary_counterexample :
    (stats_summary_counters (some (encodeStats topVec))
        (List.replicate 16 none)).getD STATS_NUMFILES 0 = 7 ∧
    (stats_summary_counters (some (encodeStats topVec))
        (List.replicate 16 none)).getD STATS_TOTALSIZE 0 = 9 ∧
    (stats_summary_counters (some (encodeStats topVec))
        (List.replicate 16 none)).getD STATS_MAXFILES 0 = 5 ∧
    (stats_summary_counters (some (encodeStats topVec))
        (List.replicate 16 none)).getD STATS_MAXSIZE 0 = 16 * (DEFAULT_MAXSIZE / 16) ∧
    topVec.getD STATS_NUMFILES 0 = 7 ∧ topVec.getD STATS_TOTALSIZE 0 = 9 ∧
    topVec.getD STATS_MAXFILES 0 = 5 ∧ topVec.getD STATS_MAXSIZE 0 = 11 := by
  decide

/-- C7 amended: in the `stats_summary` aggregation over the top-level file
and the shard files, exactly one slot read from the top-level aggregate
file is suppressed before the shard values are summed: the max-size slot
is reset to 0 after the top-level read ("oh what a nasty hack").  Every
other slot read from the top-level file — the file count, the total size
and max-files included — is carried into the sum.  For shard files that
are well-formed encodings, each displayed slot is the 32-bit sum of the
(possibly suppressed) top-level value with the shard values. -/
theorem stats_summary_maxsize_hack (top : Option (List Char)) (ws : List (List Nat))
    (hws : ∀ w ∈ ws, w.length = STATS_END ∧ ∀ x ∈ w, x < 2 ^ 32) :
    ∀ i < STATS_END,
      (stats_summary_counters top (ws.map (fun w => some (encodeStats w)))).getD i 0
        = ws.foldl (fun a w => (a + w.getD i 0) % 2 ^ 32)
            (if i = STATS_MAXSIZE then 0 else (stats_read top zeroCounters).getD i 0) := by
  intro i hi
  unfold stats_summary_counters
  rw [summary_fold_getD ws _ (by rw [List.length_set, stats_read_length]) hws i hi]
  congr 1
  split
  · next h =>
    subst h
    exact getD_set_self _ _ _ (by rw [stats_read_length]; decide)
  · next h =>
    exact getD_set_other _ _ _ _ (fun e => h e.symm)

theorem stats_summary_maxsize_hack_witness :
    ((∀ w ∈ [topVec], w.length = STATS_END ∧ ∀ x ∈ w, x < 2 ^ 32) ∧
      STATS_NUMFILES < STATS_END) ∧
    (stats_summary_counters (some (encodeStats topVec))
        ([topVec].map (fun w => some (encodeStats w)))).getD STATS_NUMFILES 0
      = [topVec].foldl (fun a w => (a + w.getD STATS_NUMFILES 0) % 2 ^ 32)
          (if STATS_NUMFILES = STATS_MAXSIZE then 0
           else (stats_read (some (encodeStats topVec)) zeroCounters).getD
             STATS_NUMFILES 0) :=
  ⟨⟨by decide, by decide⟩,
    stats_summary_maxsize_hack (some (encodeStats topVec)) [topVec] (by decide)
      STATS_NUMFILES (by decide)⟩
